import Mathlib

/-!
# Verification of the outbound message queue (`src/transport.rs`)

A shallow embedding of the `Transport` resource of `bevy_simple_networking`:
an outbound staging buffer holding a FIFO sequence of pending messages plus
three link-condition fields (frame budget, latency, packet loss), with a
predicate-based selective drain as its one nontrivial algorithm.

Modelling conventions:
* `VecDeque<Message>` is a `List Message` (front of the list = front of the deque).
* `i32` / `i64` fields are `Int`.  The code only stores these values and divides
  `latency_nanos` by the positive constants `1_000_000` and `1_000`, so no
  overflow or wrap-around can occur and unbounded integers are faithful;
  Rust's `/` on signed integers truncates toward zero, which is `Int.div`.
* The `f32` field `packet_loss` is modelled as `ℚ`: the code only ever stores
  the given value and returns it verbatim — no floating-point arithmetic
  happens anywhere in the source.
* The Rust drain filter has type `impl FnMut(&mut Message) -> bool`; passing a
  message by mutable reference is modelled by the filter returning the
  (possibly mutated) message together with its boolean verdict, and the loop
  writing that message back before branching.
-/

namespace BevyTransport

/-- Modelled from the spec: the `Message` type lives in `src/message.rs`, which is
not among the provided sources.  The spec describes it as "an addressed payload —
destination network address, opaque byte payload", immutable once constructed.
The network address is kept opaque as a `String`; payload bytes are naturals. -/
structure Message where
  destination : String
  payload : List Nat
deriving DecidableEq

/-- Modelled from the spec: `Message::new(destination, payload)` packages a
destination address with a payload byte sequence. -/
def Message.new (destination : String) (payload : List Nat) : Message :=
  { destination := destination, payload := payload }

/-- The `Transport` resource (transport.rs, lines 7–12): the owner of the queue of
messages to be sent, plus the advisory link-condition fields. -/
structure Transport where
  messages : List Message
  frame_budget_bytes : Int
  latency_nanos : Int
  packet_loss : ℚ
deriving DecidableEq

/-- Source `Transport::new` (transport.rs, lines 17–24): empty queue, zeroed fields.
It is a total constructor — there are no error conditions. -/
def Transport.new : Transport :=
  { messages := []
    frame_budget_bytes := 0
    latency_nanos := 0
    packet_loss := 0 }

/-- Source `Default for Transport` (transport.rs, lines 110–119): the derived-by-hand
default, field for field the same record as `Transport::new`. -/
def Transport.default : Transport :=
  { messages := []
    frame_budget_bytes := 0
    latency_nanos := 0
    packet_loss := 0 }

/-- Source `set_frame_budget_bytes` (transport.rs, lines 33–35). -/
def Transport.set_frame_budget_bytes (t : Transport) (budget : Int) : Transport :=
  { t with frame_budget_bytes := budget }

/-- Source `latency_millis` (transport.rs, lines 38–40): `self.latency_nanos / 1_000_000`.
Rust `/` on `i64` truncates toward zero, i.e. `Int.tdiv`. -/
def Transport.latency_millis (t : Transport) : Int :=
  Int.tdiv t.latency_nanos 1000000

/-- Source `latency_micros` (transport.rs, lines 43–45): `self.latency_nanos / 1000`,
truncating toward zero. -/
def Transport.latency_micros (t : Transport) : Int :=
  Int.tdiv t.latency_nanos 1000

/-- Source `set_latency_nanos` (transport.rs, lines 54–56). -/
def Transport.set_latency_nanos (t : Transport) (latency : Int) : Transport :=
  { t with latency_nanos := latency }

/-- Source `set_packet_loss` (transport.rs, lines 65–67): stores the value as given,
with no clamping or validation. -/
def Transport.set_packet_loss (t : Transport) (loss : ℚ) : Transport :=
  { t with packet_loss := loss }

/-- Source `send` (transport.rs, lines 71–74): constructs a `Message` and pushes it onto
the back of the queue. -/
def Transport.send (t : Transport) (destination : String) (payload : List Nat) :
    Transport :=
  { t with messages := t.messages ++ [Message.new destination payload] }

/-- Source `has_messages` (transport.rs, lines 77–80): `!self.messages.is_empty()`.
A pure query: it reads the state and returns a `Bool`, touching nothing. -/
def Transport.has_messages (t : Transport) : Bool :=
  !t.messages.isEmpty

/-- Source `get_messages` (transport.rs, lines 83–86): a read-only view of the queue. -/
def Transport.get_messages (t : Transport) : List Message :=
  t.messages

/-- The `while i != self.messages.len()` loop of `drain_messages_to_send`
(transport.rs, lines 96–105).  At each step the filter is applied to the message
at index `i` through a mutable reference — modelled by writing the returned
message back at index `i` — and on a `true` verdict `remove(i)` extracts that
(mutated) message and appends it to `drained`, leaving `i` unchanged; on `false`
the index advances.  The source loop guard is `i != len`; since `i` starts at 0,
`i ≤ len` is a loop invariant (an index beyond the length would be an
out-of-bounds panic at `self.messages[i]`), so the guard coincides with
`i < len`, which is the dischargeable form used here.  `trace` is ghost
instrumentation, absent from the source: it records, in order, every message
value the filter is invoked on. -/
def drainLoop (filter : Message → Bool × Message) (messages : List Message)
    (i : Nat) (drained : List Message) (trace : List Message) :
    List Message × List Message × List Message :=
  if h : i < messages.length then
    let m := messages.get ⟨i, h⟩
    let r := filter m
    let written := messages.set i r.2
    if r.1 then
      drainLoop filter (written.eraseIdx i) i (drained ++ [r.2]) (trace ++ [m])
    else
      drainLoop filter written (i + 1) drained (trace ++ [m])
  else
    (messages, drained, trace)
termination_by messages.length - i
decreasing_by
  · simp only [List.length_eraseIdx, List.length_set]
    split <;> omega
  · simp only [List.length_set]
    omega

/-- Source `drain_messages_to_send` (transport.rs, lines 91–107): runs the loop from
index 0 with an empty `drained` vector, returns the drained messages and leaves
the unmatched ones in the queue.  (The ghost trace of `drainLoop` is discarded.) -/
def Transport.drain_messages_to_send (t : Transport)
    (filter : Message → Bool × Message) : List Message × Transport :=
  let r := drainLoop filter t.messages 0 [] []
  (r.2.1, { t with messages := r.1 })

/-- Specification-style recursive characterisation of one drain pass: scan the
list front to back, apply the filter once to each element, route the (possibly
mutated) element into the kept list or the drained list according to the
verdict.  Returns `(remaining, drained)`. -/
def drainModel (filter : Message → Bool × Message) :
    List Message → List Message × List Message
  | [] => ([], [])
  | m :: rest =>
    let r := filter m
    let s := drainModel filter rest
    if r.1 then (s.1, r.2 :: s.2) else (r.2 :: s.1, s.2)

/-! ## List index/removal helper lemmas -/

lemma set_eraseIdx_self {α : Type*} (l : List α) (i : Nat) (v : α) :
    (l.set i v).eraseIdx i = l.eraseIdx i := by
  induction l generalizing i with
  | nil => simp
  | cons x xs ih =>
    cases i with
    | zero => simp [List.set, List.eraseIdx]
    | succ j => simp [List.set, List.eraseIdx, ih]

lemma take_eraseIdx_self {α : Type*} (l : List α) (i : Nat) :
    (l.eraseIdx i).take i = l.take i := by
  induction l generalizing i with
  | nil => simp
  | cons x xs ih =>
    cases i with
    | zero => simp [List.eraseIdx]
    | succ j => simp [List.eraseIdx, ih]

lemma drop_eraseIdx_self {α : Type*} (l : List α) (i : Nat) :
    (l.eraseIdx i).drop i = l.drop (i + 1) := by
  induction l generalizing i with
  | nil => simp
  | cons x xs ih =>
    cases i with
    | zero => simp [List.eraseIdx]
    | succ j => simp [List.eraseIdx, ih]

lemma take_set_succ {α : Type*} (l : List α) (i : Nat) (v : α) (h : i < l.length) :
    (l.set i v).take (i + 1) = l.take i ++ [v] := by
  induction l generalizing i with
  | nil => simp at h
  | cons x xs ih =>
    cases i with
    | zero => simp [List.set]
    | succ j =>
      simp only [List.length_cons, Nat.succ_lt_succ_iff] at h
      simp [List.set, ih j h]

lemma drop_set_succ {α : Type*} (l : List α) (i : Nat) (v : α) :
    (l.set i v).drop (i + 1) = l.drop (i + 1) := by
  induction l generalizing i with
  | nil => simp
  | cons x xs ih =>
    cases i with
    | zero => simp [List.set]
    | succ j => simp [List.set, ih]

lemma drop_eq_get_cons {α : Type*} (l : List α) (i : Nat) (h : i < l.length) :
    l.drop i = l.get ⟨i, h⟩ :: l.drop (i + 1) := by
  induction l generalizing i with
  | nil => simp at h
  | cons x xs ih =>
    cases i with
    | zero => simp
    | succ j =>
      simp only [List.length_cons, Nat.succ_lt_succ_iff] at h
      exact ih j h

/-! ## The loop computes a stable partition -/

/-- The loop of `drain_messages_to_send`, started at index `i` with accumulators
`drained` and `trace`, leaves the first `i` elements untouched, splits the
suffix according to `drainModel`, and invokes the filter exactly once on each
element of the suffix, front to back. -/
lemma drainLoop_eq (filter : Message → Bool × Message) :
    ∀ (n : Nat) (messages : List Message) (i : Nat) (drained trace : List Message),
      messages.length - i ≤ n →
      drainLoop filter messages i drained trace =
        (messages.take i ++ (drainModel filter (messages.drop i)).1,
         drained ++ (drainModel filter (messages.drop i)).2,
         trace ++ messages.drop i) := by
  intro n
  induction n with
  | zero =>
    intro messages i drained trace hn
    have hi : ¬ i < messages.length := by omega
    have hle : messages.length ≤ i := by omega
    rw [drainLoop]
    simp [hi, List.drop_eq_nil_of_le hle, drainModel, List.take_of_length_le hle]
  | succ n ih =>
    intro messages i drained trace hn
    by_cases hi : i < messages.length
    · rw [drainLoop]
      simp only [hi, dif_pos]
      rw [drop_eq_get_cons messages i hi]
      by_cases hb : (filter (messages.get ⟨i, hi⟩)).1
      · simp only [hb, if_true, drainModel]
        rw [ih ((messages.set i (filter (messages.get ⟨i, hi⟩)).2).eraseIdx i) i
          (drained ++ [(filter (messages.get ⟨i, hi⟩)).2]) _
          (by simp only [List.length_eraseIdx, List.length_set]; split <;> omega)]
        rw [set_eraseIdx_self, take_eraseIdx_self, drop_eraseIdx_self]
        simp [hb, List.append_assoc]
      · simp only [hb, if_false, drainModel]
        rw [ih (messages.set i (filter (messages.get ⟨i, hi⟩)).2) (i + 1) drained _
          (by simp only [List.length_set]; omega)]
        rw [take_set_succ messages i _ hi, drop_set_succ]
        simp [hb, List.append_assoc]
    · have hle : messages.length ≤ i := by omega
      rw [drainLoop]
      simp [hi, List.drop_eq_nil_of_le hle, drainModel, List.take_of_length_le hle]

/-- The function `drain_messages_to_send` computes exactly the one-pass split described by
`drainModel`: drained messages in the first component, the queue keeping the
unmatched ones. -/
lemma drain_messages_to_send_eq (t : Transport) (filter : Message → Bool × Message) :
    t.drain_messages_to_send filter =
      ((drainModel filter t.messages).2,
       { t with messages := (drainModel filter t.messages).1 }) := by
  unfold Transport.drain_messages_to_send
  rw [drainLoop_eq filter t.messages.length t.messages 0 [] [] (by omega)]
  simp

/-- Evaluating `drainModel` for a filter that decides with `p` on the incoming message and
mutates it with `g`: the verdict-`true` messages come out mapped by `g`, and the
verdict-`false` messages stay, also mapped by `g`, each side in original order. -/
lemma drainModel_comp (p : Message → Bool) (g : Message → Message) (l : List Message) :
    drainModel (fun m => (p m, g m)) l =
      ((l.filter fun m => !p m).map g, (l.filter p).map g) := by
  induction l with
  | nil => simp [drainModel]
  | cons m rest ih => by_cases h : p m <;> simp [drainModel, h, ih]

/-- Evaluating `drainModel` for a pure, non-mutating predicate is the stable partition by
`List.filter`. -/
lemma drainModel_pure (p : Message → Bool) (l : List Message) :
    drainModel (fun m => (p m, m)) l = (l.filter (fun m => !p m), l.filter p) := by
  induction l with
  | nil => simp [drainModel]
  | cons m rest ih => by_cases h : p m <;> simp [drainModel, h, ih]

/-! ## Claim theorems -/

/-- C1: for every queue state and every predicate, `drain_messages_to_send`
removes exactly the messages for which the predicate returns true, returning
them in the relative order they held in the queue, while the messages for which
the predicate returns false remain in the queue in their original relative
order — a stable partition. -/
theorem drain_matching_stable_partition (t : Transport) (p : Message → Bool) :
    (t.drain_messages_to_send (fun m => (p m, m))).1 = t.messages.filter p ∧
    (t.drain_messages_to_send (fun m => (p m, m))).2.messages =
      t.messages.filter (fun m => !p m) := by
  rw [drain_messages_to_send_eq, drainModel_pure]
  exact ⟨rfl, rfl⟩

/-- C2: for every queue state and pure predicate, draining twice in a row with
the same predicate and no intervening enqueues yields an empty second result —
matched messages really are removed by the first call. -/
theorem drain_matching_second_call_empty (t : Transport) (p : Message → Bool) :
    ((t.drain_messages_to_send (fun m => (p m, m))).2.drain_messages_to_send
      (fun m => (p m, m))).1 = [] := by
  rw [drain_messages_to_send_eq, drain_messages_to_send_eq]
  simp only [drainModel_pure]
  have key : ∀ l : List Message, (l.filter (fun m => !p m)).filter p = [] := by
    intro l
    induction l with
    | nil => simp
    | cons m rest ih => by_cases h : p m <;> simp [h, ih]
  exact key t.messages

/-- C3: the drain loop is a single linear pass — the filter is invoked exactly
once on each pending message, in FIFO order, none skipped, none re-visited
after a removal.  The ghost `trace` of `drainLoop` records every filter
invocation, and over a full run it is exactly the original queue.  (The O(k)
removal cost bound is a running-time claim outside the embedding.) -/
theorem drain_matching_single_pass (t : Transport) (filter : Message → Bool × Message) :
    (drainLoop filter t.messages 0 [] []).2.2 = t.messages := by
  rw [drainLoop_eq filter t.messages.length t.messages 0 [] [] (by omega)]
  simp

/-- C4: draining with the always-true predicate returns all pending messages in
FIFO order and empties the queue; draining with the always-false predicate
returns nothing and leaves the whole state unchanged; and on an empty queue any
filter drains nothing. -/
theorem drain_matching_trivial_predicates (t : Transport)
    (filter : Message → Bool × Message) :
    (t.drain_messages_to_send (fun m => (true, m))).1 = t.messages ∧
    (t.drain_messages_to_send (fun m => (true, m))).2.messages = [] ∧
    (t.drain_messages_to_send (fun m => (false, m))).1 = [] ∧
    (t.drain_messages_to_send (fun m => (false, m))).2 = t ∧
    ({ t with messages := [] }.drain_messages_to_send filter).1 = [] := by
  refine ⟨?_, ?_, ?_, ?_, ?_⟩ <;>
    rw [drain_messages_to_send_eq] <;>
    simp [drainModel_pure (fun _ => true), drainModel_pure (fun _ => false), drainModel]

/-- C5: `latency_millis` is `latency_nanos` divided by 1 000 000 and
`latency_micros` is `latency_nanos` divided by 1 000, both with integer
division truncating toward zero; in particular after
`set_latency_nanos 1_500_000`, millis is 1 (not the rounded 2) and micros is
1500, and after `set_latency_nanos (-1_500_000)`, millis is -1 (toward zero,
not the floor -2). -/
theorem latency_conversions_truncate (t : Transport) :
    t.latency_millis = Int.tdiv t.latency_nanos 1000000 ∧
    t.latency_micros = Int.tdiv t.latency_nanos 1000 ∧
    (t.set_latency_nanos 1500000).latency_millis = 1 ∧
    (t.set_latency_nanos 1500000).latency_micros = 1500 ∧
    (t.set_latency_nanos (-1500000)).latency_millis = -1 := by
  refine ⟨rfl, rfl, ?_, ?_, ?_⟩
  · show Int.tdiv 1500000 1000000 = 1
    decide
  · show Int.tdiv 1500000 1000 = 1500
    decide
  · show Int.tdiv (-1500000) 1000000 = -1
    decide

/-- C6: `Transport::new` returns a queue with empty `pending`,
`frame_budget_bytes = 0`, `latency_nanos = 0` and `packet_loss = 0.0`; it is a
total constructor with no error conditions. -/
theorem new_initial_state :
    Transport.new.messages = [] ∧
    Transport.new.frame_budget_bytes = 0 ∧
    Transport.new.latency_nanos = 0 ∧
    Transport.new.packet_loss = 0 :=
  ⟨rfl, rfl, rfl, rfl⟩

/-- C7: the link-condition setters round-trip exactly — `frame_budget_bytes`
after `set_frame_budget_bytes v` is `v` whatever the queue holds, `packet_loss`
after `set_packet_loss v` is `v` with no clamping — and neither enqueue nor
drain mutates any of the three link-condition fields (the read accessors are
pure functions of the state and mutate nothing by construction). -/
theorem link_condition_fields_roundtrip (t : Transport) (v : Int) (q : ℚ)
    (d : String) (payload : List Nat) (filter : Message → Bool × Message) :
    (t.set_frame_budget_bytes v).frame_budget_bytes = v ∧
    (t.set_packet_loss q).packet_loss = q ∧
    (t.send d payload).frame_budget_bytes = t.frame_budget_bytes ∧
    (t.send d payload).latency_nanos = t.latency_nanos ∧
    (t.send d payload).packet_loss = t.packet_loss ∧
    (t.drain_messages_to_send filter).2.frame_budget_bytes = t.frame_budget_bytes ∧
    (t.drain_messages_to_send filter).2.latency_nanos = t.latency_nanos ∧
    (t.drain_messages_to_send filter).2.packet_loss = t.packet_loss :=
  ⟨rfl, rfl, rfl, rfl, rfl, rfl, rfl, rfl⟩

/-- C8: `has_messages` returns true exactly when the queue is non-empty; being
a function of the state, it has no side effects. -/
theorem has_messages_iff_nonempty (t : Transport) :
    t.has_messages = true ↔ t.messages ≠ [] := by
  simp [Transport.has_messages]

/-- C9: the hand-written `Default` instance builds the same state as
`Transport::new` — the two construction paths are field-for-field equal. -/
theorem default_eq_new : Transport.default = Transport.new := rfl

/-- C10: the filter receives each message by mutable reference and any mutation
persists: with a filter that decides via `p` and rewrites the message via `g`,
the drained messages come out with `g` applied, and the unmatched messages stay
in the queue with `g` applied — mutations of non-matching messages are not
rolled back. -/
theorem drain_matching_mutation_persists (t : Transport) (p : Message → Bool)
    (g : Message → Message) :
    (t.drain_messages_to_send (fun m => (p m, g m))).1 = (t.messages.filter p).map g ∧
    (t.drain_messages_to_send (fun m => (p m, g m))).2.messages =
      (t.messages.filter fun m => !p m).map g := by
  rw [drain_messages_to_send_eq, drainModel_comp]
  exact ⟨rfl, rfl⟩

end BevyTransport
